import Mathlib

/-!
# Verification of the node-fogbugz response-extraction core

Shallow embedding of `src/index.js` (the v0.2.3 copy, lines 441-992, which is
the version the specification describes).  JavaScript values flowing through
the xml2js parse tree are modelled by `JVal`; property access, indexing,
truthiness and the string methods used by the code (`trim`, `split`, `join`)
are modelled including their throwing behaviour (`Option`, `none` = a thrown
`TypeError`).  Each public operation is modelled as a pure function of the
session-token store and of the transport collaborator's callback arguments,
returning the final settlement of its Q deferred (first settle wins), the
store after the call, and whether the transport collaborator was invoked.
-/

namespace Fogbugz

/-- A JavaScript value as produced by xml2js and manipulated by the module.
`undefined` is JavaScript `undefined` (the result of reading an absent property). -/
inductive JVal : Type where
  | undefined : JVal
  | bool (b : Bool) : JVal
  | str (s : String) : JVal
  | arr (xs : List JVal) : JVal
  | obj (fields : List (String × JVal)) : JVal

/-- The field list of a JavaScript object (insertion ordered, keys unique in
any value xml2js can produce). -/
abbrev JObj := List (String × JVal)

/-- Reading property `k` of an object: the first binding's value, or
`undefined` when the key is absent. -/
def lookupField (fs : JObj) (k : String) : JVal :=
  match fs.find? (fun p => p.1 = k) with
  | some p => p.2
  | none => .undefined

/-- JavaScript property read `v[k]`.  `none` models the `TypeError` thrown
when reading a property of `undefined`; reads on primitives and arrays give
`undefined` (the module never reads named properties of those). -/
def JVal.getProp : JVal → String → Option JVal
  | .undefined, _ => none
  | .bool _, _ => some .undefined
  | .str _, _ => some .undefined
  | .arr _, _ => some .undefined
  | .obj fs, k => some (lookupField fs k)

/-- JavaScript truthiness. -/
def jsTruthy : JVal → Bool
  | .undefined => false
  | .bool b => b
  | .str s => s ≠ ""
  | .arr _ => true
  | .obj _ => true

/-- JavaScript indexing `v[i]`.  `none` models the `TypeError` on
`undefined[i]`; out-of-range indexing yields `undefined`. -/
def JVal.index : JVal → Nat → Option JVal
  | .undefined, _ => none
  | .bool _, _ => some .undefined
  | .str s, i =>
      some (match s.toList.drop i with
            | [] => .undefined
            | c :: _ => .str (String.mk [c]))
  | .arr xs, i => some (xs.getD i .undefined)
  | .obj fs, i => some (lookupField fs (toString i))

mutual

/-- JavaScript `String(v)` coercion (used by `util.format`'s `%s` in the
Node version of the source's era, and by `Array.prototype.join`). -/
def jsToString : JVal → String
  | .undefined => "undefined"
  | .bool b => cond b "true" "false"
  | .str s => s
  | .obj _ => "[object Object]"
  | .arr xs => jsArrToString xs

/-- `Array.prototype.toString` = `join(',')`; `undefined` elements become
empty strings. -/
def jsArrToString : List JVal → String
  | [] => ""
  | [.undefined] => ""
  | [v] => jsToString v
  | .undefined :: vs => "," ++ jsArrToString vs
  | v :: vs => jsToString v ++ "," ++ jsArrToString vs

end

/-- `Array.prototype.join(sep)` on a list of values. -/
def jsJoinList (sep : String) : List JVal → String
  | [] => ""
  | [.undefined] => ""
  | [v] => jsToString v
  | .undefined :: vs => sep ++ jsJoinList sep vs
  | v :: vs => jsToString v ++ sep ++ jsJoinList sep vs

/-- Characters removed by `String.prototype.trim` (the white-space and line
terminators these responses can carry). -/
def isJsWhitespace (c : Char) : Bool :=
  c = ' ' || c = '\t' || c = '\n' || c = '\r' || c = '\x0b' || c = '\x0c'

/-- `String.prototype.trim`. -/
def jsTrimString (s : String) : String :=
  String.mk (((s.data.dropWhile isJsWhitespace).reverse.dropWhile isJsWhitespace).reverse)

/-- `String.prototype.split(',')` (always called with a one-character
separator that cannot straddle matches). -/
def splitCommaAux : List Char → List Char → List String
  | [], acc => [String.mk acc.reverse]
  | c :: cs, acc =>
      if c = ',' then String.mk acc.reverse :: splitCommaAux cs []
      else splitCommaAux cs (c :: acc)

/-- `s.split(',')`. -/
def jsSplitComma (s : String) : List String := splitCommaAux s.data []

/-- The method call `v.trim()`: defined on strings only, a thrown `TypeError`
(`none`) otherwise. -/
def jsTrimMeth : JVal → Option JVal
  | .str s => some (.str (jsTrimString s))
  | _ => none

/-- Truthiness of `v.length` (used in guards such as
`!r.response.cases.length`): throws on `undefined`, `undefined` (falsy) on
plain objects and booleans, the length on strings and arrays. -/
def jsLengthTruthy : JVal → Option Bool
  | .undefined => none
  | .bool _ => some false
  | .str s => some (s.length ≠ 0)
  | .arr xs => some (xs.length ≠ 0)
  | .obj _ => some false

/-- JavaScript assignment `o[k] = v` on an object: updates the first existing
binding in place, otherwise appends the new binding. -/
def objSet : JObj → String → JVal → JObj
  | [], k, v => [(k, v)]
  | (k', v') :: rest, k, v =>
      if k' = k then (k', v) :: rest else (k', v') :: objSet rest k v

/-- Key list of an object with duplicates removed keeping first occurrences
(`_.keys`; xml2js objects never actually carry duplicate keys). -/
def dedupFirstAux : List String → List String → List String
  | _, [] => []
  | seen, k :: ks =>
      if k ∈ seen then dedupFirstAux seen ks
      else k :: dedupFirstAux (k :: seen) ks

/-- Duplicate-free key list, first occurrences kept. -/
def dedupFirst (l : List String) : List String := dedupFirstAux [] l

/-! ## Module constants (`MODULE_ERRORS`, configuration) -/

/-- `MODULE_ERRORS.undefinedToken`. -/
def MODULE_ERRORS.undefinedToken : String := "token is undefined; you are not logged in"

/-- `MODULE_ERRORS.xmlParseError`. -/
def MODULE_ERRORS.xmlParseError : String := "invalid xml received from server"

/-- `MODULE_ERRORS.bugNotFound`. -/
def MODULE_ERRORS.bugNotFound : String := "could not find bug"

/-- `MODULE_ERRORS.unknown`. -/
def MODULE_ERRORS.unknown : String := "unknown error"

/-- The configuration collaborator (`fogbugz.conf.json`, with `protocol`
already defaulted to "https" at load time). -/
structure Conf where
  protocol : String
  host : String
  username : String
  password : String

/-! ## Transport and settlement model -/

/-- A response body handed to xml2js: either text that fails to parse, or a
document whose top-level `<response>` element parsed to the given value
(`res.response`; an empty `<response/>` parses to the empty string). -/
inductive Body where
  | malformed : Body
  | xml (response : JVal) : Body

/-- The arguments the transport collaborator (`request`) passes to its
callback: a truthy error, or a successful delivery of a body. -/
inductive Transport where
  | tErr (e : String) : Transport
  | tOk (body : Body) : Transport

/-- A value a Q deferred is rejected with. -/
inductive JSRej where
  | undefined : JSRej                -- `dfrd.reject()` with no reason
  | str (s : String) : JSRej     -- `dfrd.reject('...')`
  | val (v : JVal) : JSRej       -- `dfrd.reject(res.response.error)`
  | errObj (s : String) : JSRej  -- `dfrd.reject(new Error('...'))`
  | transport (e : String) : JSRej -- `dfrd.reject(err)` with the transport error

/-- The final state of an operation's Q promise.  `pending` means the
deferred was never settled (e.g. a `TypeError` escaped the request
callback). -/
inductive Settle where
  | pending : Settle
  | resolved (v : JVal) : Settle
  | rejected (e : JSRej) : Settle

/-- Q semantics: only the first `resolve`/`reject` on a deferred takes
effect; `s.first attempt` is the state after attempting a further settle
on a deferred currently in state `s`. -/
def Settle.first : Settle → Settle → Settle
  | .pending, s => s
  | s, _ => s

/-- Token-store truthiness: `cache.get('token')` yields `null` (falsy) when
the slot is empty, otherwise the stored value. -/
def tokenTruthy : Option JVal → Bool
  | none => false
  | some v => jsTruthy v

/-- Result of running one public operation: final promise settlement, token
store afterwards, and whether the transport collaborator was invoked. -/
structure OpResult where
  settle : Settle
  store : Option JVal
  networkUsed : Bool

/-! ## `_parse` and `_extractEmptyResponse` -/

/-- `_parse(xml, dfrd)`: returns the rejection it performed on `dfrd` (if
any) together with the value it returned (`none` = `undefined`).  The outer
`none` models the `TypeError` thrown when the parsed document has no
top-level `response` node to read `.error` from. -/
def _parse : Body → Option (Option JSRej × Option JVal)
  | .malformed => some (some (.str MODULE_ERRORS.xmlParseError), none)
  | .xml resp =>
      match resp.getProp "error" with
      | none => none
      | some e =>
          if jsTruthy e then some (some (.val e), none)
          else some (none, some resp)

/-- `_extractEmptyResponse(xml, dfrd)`: on a parse error it rejects with no
reason (the `return MODULE_ERRORS.xmlParseError` value is discarded by
`parseString`); on a truthy `response.error` it rejects with that value. -/
def _extractEmptyResponse : Body → Option (Option JSRej)
  | .malformed => some (some .undefined)
  | .xml resp =>
      match resp.getProp "error" with
      | none => none
      | some e =>
          if jsTruthy e then some (some (.val e)) else some none

/-! ## Token store primitives -/

/-- `fogbugz.setToken(token)`: `cache.put('token', token)`. -/
def setToken (_store : Option JVal) (token : JVal) : Option JVal := some token

/-- `fogbugz.forgetToken()`: `cache.del('token')`. -/
def forgetToken (_store : Option JVal) : Option JVal := none

/-! ## `logon` -/

/-- `extractToken`'s successful read `r.response.token[0]` (given `r` is
defined); `none` models the `TypeError` when `response.token` is absent. -/
def extractTokenVal (resp : JVal) : Option JVal := do
  let t ← resp.getProp "token"
  t.index 0

/-- `fogbugz.logon()`.  Note the source resolves with the cached token when
one is stored but then issues the logon request unconditionally (there is no
`else` around the `request(...)` call); the late settles are no-ops on the
already-resolved deferred, but a token delivered by the network reply is
still written to the cache. -/
def logon (store : Option JVal) (t : Transport) : OpResult :=
  let s0 : Settle :=
    match store with
    | some tok =>
        if jsTruthy tok then .resolved (.obj [("token", tok), ("cached", .bool true)])
        else .pending
    | none => .pending
  match t with
  | .tErr e => ⟨s0.first (.rejected (.transport e)), store, true⟩
  | .tOk body =>
    match _parse body with
    | none => ⟨s0, store, true⟩
    | some (rejection, r) =>
      let s1 : Settle :=
        match rejection with
        | some rej => s0.first (.rejected rej)
        | none => s0
      match r with
      | none =>
          -- extractToken returned undefined, so `!newToken` rejects unknown
          ⟨s1.first (.rejected (.str MODULE_ERRORS.unknown)), store, true⟩
      | some resp =>
        match extractTokenVal resp with
        | none => ⟨s1, store, true⟩   -- TypeError escaped the callback
        | some tokv =>
          if jsTruthy tokv then
            ⟨s1.first (.resolved (.obj [("token", tokv), ("cached", .bool false)])),
             some tokv, true⟩
          else
            ⟨s1.first (.rejected (.str MODULE_ERRORS.unknown)), store, true⟩

/-! ## `logoff` -/

/-- Settlement of `fogbugz.logoff()`: reject when no token, otherwise pass
the transport error through or resolve `true` (the body is never parsed). -/
def logoffSettle (store : Option JVal) (t : Transport) : Settle :=
  if tokenTruthy store then
    match t with
    | .tErr e => .rejected (.transport e)
    | .tOk _ => .resolved (.bool true)
  else .rejected (.str MODULE_ERRORS.undefinedToken)

/-- `fogbugz.logoff()`: never touches the token store. -/
def logoff (store : Option JVal) (t : Transport) : OpResult :=
  ⟨logoffSettle store t, store, tokenTruthy store⟩

/-! ## `listFilters` -/

/-- One `new Filter({...})` record built from a `filter` node. -/
def extractFilterRecord (conf : Conf) (f : JVal) : Option JVal := do
  let u ← f.getProp "_"
  let nm ← jsTrimMeth u
  let attrs ← f.getProp "$"
  let ty ← attrs.getProp "type"
  let idv ← attrs.getProp "sFilter"
  pure (.obj [("name", nm), ("type", ty), ("id", idv),
    ("url", .str (conf.protocol ++ "://" ++ conf.host ++
      "/default.asp?pgx=LF&ixFilter=" ++ jsToString idv))])

/-- `extractFilters`' successful value:
`r.response.filters[0].filter.map(...)`; `none` models a thrown
`TypeError` (absent `filters`, non-array `filter`, ...). -/
def extractFiltersVal (conf : Conf) (resp : JVal) : Option JVal := do
  let filters ← resp.getProp "filters"
  let f0 ← filters.index 0
  let fseq ← f0.getProp "filter"
  match fseq with
  | .arr nodes => do
      let recs ← nodes.mapM (extractFilterRecord conf)
      pure (.arr recs)
  | _ => none    -- `.map` is not a function

/-- Settlement of `fogbugz.listFilters()`.  (On success the source calls
`extractFilters(body)` a second time to build the resolution value; the
extraction is deterministic, so this resolves with the same value.) -/
def listFiltersSettle (conf : Conf) (store : Option JVal) (t : Transport) : Settle :=
  if tokenTruthy store then
    match t with
    | .tErr e => .rejected (.transport e)
    | .tOk body =>
      match _parse body with
      | none => .pending
      | some (rejection, r) =>
        let s1 : Settle :=
          match rejection with
          | some rej => .rejected rej
          | none => .pending
        match r with
        | none =>
            -- extractFilters returned undefined, `filters && filters.length` fails
            s1.first (.rejected (.str MODULE_ERRORS.unknown))
        | some resp =>
          match extractFiltersVal conf resp with
          | none => s1    -- TypeError escaped the callback
          | some fv =>
            match fv with
            | .arr [] => s1.first (.rejected (.str MODULE_ERRORS.unknown))
            | _ => s1.first (.resolved fv)
  else .rejected (.str MODULE_ERRORS.undefinedToken)

/-- `fogbugz.listFilters()`: never touches the token store. -/
def listFilters (conf : Conf) (store : Option JVal) (t : Transport) : OpResult :=
  ⟨listFiltersSettle conf store t, store, tokenTruthy store⟩

/-! ## `setCurrentFilter` -/

/-- `id = typeof filter === 'string' ? filter : filter.id;` — throws
(`none`) when `filter` is `undefined`. -/
def filterIdOf (filter : JVal) : Option JVal :=
  match filter with
  | .str _ => some filter
  | f => f.getProp "id"

/-- Settlement of `fogbugz.setCurrentFilter(filter)`. -/
def setCurrentFilterSettle (store : Option JVal) (filter : JVal) (t : Transport) : Settle :=
  if tokenTruthy store then
    match filterIdOf filter with
    | none => .pending    -- threw computing `filter.id` before the request
    | some _ =>
      match t with
      | .tErr e => .rejected (.transport e)
      | .tOk body =>
        match _extractEmptyResponse body with
        | none => .pending
        | some rejection =>
          let s1 : Settle :=
            match rejection with
            | some rej => .rejected rej
            | none => .pending
          s1.first (.resolved (.bool true))
  else .rejected (.str MODULE_ERRORS.undefinedToken)

/-- `fogbugz.setCurrentFilter(filter)`: never touches the token store; the
transport is invoked unless the token is missing or `filter.id` threw. -/
def setCurrentFilter (store : Option JVal) (filter : JVal) (t : Transport) : OpResult :=
  ⟨setCurrentFilterSettle store filter t, store,
   tokenTruthy store && (filterIdOf filter).isSome⟩

/-! ## Per-case extraction (shared verbatim by `search` and `editBug`) -/

/-- The repeated access pattern `kase.fld[0].trim()` of the named text
fields (`sTitle`, `sStatus`, `sFixFor`, and the two assignee fields). -/
def caseField (kase : JVal) (fld : String) : Option JVal := do
  let v ← kase.getProp fld
  let v0 ← v.index 0
  jsTrimMeth v0

/-- `kase.$.operations.split(',')` (`.split` throws on a non-string). -/
def caseOperations (attrs : JVal) : Option JVal := do
  let opsv ← attrs.getProp "operations"
  match opsv with
  | .str s => some (JVal.arr ((jsSplitComma s).map JVal.str))
  | _ => none

/-- The object literal handed to `new Case({...})`. -/
def caseBug0 (conf : Conf) (kase : JVal) : Option JObj := do
  let attrs ← kase.getProp "$"
  let ixBug ← attrs.getProp "ixBug"
  let operations ← caseOperations attrs
  let title ← caseField kase "sTitle"
  let status ← caseField kase "sStatus"
  let fixFor ← caseField kase "sFixFor"
  pure [("id", ixBug), ("operations", operations), ("title", title), ("status", status),
        ("url", .str (conf.protocol ++ "://" ++ conf.host ++ "/default.asp?" ++
                      jsToString ixBug)),
        ("fixFor", fixFor)]

/-- `if (kase.sPersonAssignedTo) { bug.assignedTo = ...; bug.assignedToEmail = ...; }` -/
def caseAssignee (kase : JVal) (bug0 : JObj) : Option JObj := do
  let pa ← kase.getProp "sPersonAssignedTo"
  if jsTruthy pa then do
    let a ← jsTrimMeth (← pa.index 0)
    let ae ← caseField kase "sEmailAssignedTo"
    pure (objSet (objSet bug0 "assignedTo" a) "assignedToEmail" ae)
  else pure bug0

/-- `if (kase.tags && kase.tags[0].tag) { bug.tags = kase.tags[0].tag.join(', '); }` -/
def caseJoinedTags (kase : JVal) (bug1 : JObj) : Option JObj := do
  let tg ← kase.getProp "tags"
  if jsTruthy tg then do
    let tgt ← (← tg.index 0).getProp "tag"
    if jsTruthy tgt then
      match tgt with
      | .arr xs => pure (objSet bug1 "tags" (.str (jsJoinList ", " xs)))
      | _ => none   -- `.join` is not a function
    else pure bug1
  else pure bug1

/-- The named fields of `new Case({...})` plus the two conditional blocks
(assignee, joined tags): the object `bug` right before the residual merge
runs.  Each step that can throw a `TypeError` (absent `$`, absent `sTitle`,
`.trim` on a non-string, ...) propagates `none`. -/
def extractCaseBase (conf : Conf) (kase : JVal) : Option JObj := do
  let bug0 ← caseBug0 conf kase
  let bug1 ← caseAssignee kase bug0
  caseJoinedTags kase bug1

/-- The fixed key list concatenated to `_.keys(bug)` in the residual
`difference`. -/
def fixedResidualExclusion : List String :=
  ["sTitle", "sStatus", "$", "sFixFor", "sPersonAssignedTo", "sEmailAssignedTo"]

/-- `_(kase).keys().difference(_.keys(bug).concat(...))`: the case-node keys
left over for the residual merge, in document order. -/
def residualKeys (fs : JObj) (bug : JObj) : List String :=
  (dedupFirst (fs.map Prod.fst)).filter
    (fun k => decide (k ∉ bug.map Prod.fst ++ fixedResidualExclusion))

/-- The value written for one residual key:
`_.isArray(value) && value.length === 1 ? value[0].trim() : value`
(`none` = the `.trim()` call threw on a non-string element). -/
def residualVal (fs : JObj) (k : String) : Option JVal :=
  match lookupField fs k with
  | .arr [x] => jsTrimMeth x
  | v => some v

/-- The `.each` loop of the residual merge. -/
def residualMerge (fs : JObj) : JObj → List String → Option JObj
  | b, [] => some b
  | b, k :: ks => do
      let v ← residualVal fs k
      residualMerge fs (objSet b k v) ks

/-- One full case node to one `Case` record: the named extraction, the
residual merge, then `bug._raw = kase`.  (Reaching the residual merge forces
`kase` to be an object: reading `kase.$.ixBug` threw already otherwise.) -/
def extractCase (conf : Conf) (kase : JVal) : Option JVal := do
  let bug2 ← extractCaseBase conf kase
  match kase with
  | .obj fs => do
      let bug3 ← residualMerge fs bug2 (residualKeys fs bug2)
      pure (.obj (objSet bug3 "_raw" kase))
  | _ => none

/-! ## `search` -/

/-- The guard
`!r || !r.response || !r.response.cases || !r.response.cases.length || !r.response.cases[0].case`
evaluated on a defined `r` (so `!r` is false and `r.response` is `resp`).
`some true` = guard fired (reject `bugNotFound`); `none` = a `TypeError`. -/
def searchGuard (resp : JVal) : Option Bool := do
  if ¬ jsTruthy resp then return true
  let cases ← resp.getProp "cases"
  if ¬ jsTruthy cases then return true
  let lt ← jsLengthTruthy cases
  if ¬ lt then return true
  let c0 ← cases.index 0
  let k ← c0.getProp "case"
  return ¬ jsTruthy k

/-- `r.response.cases[0].case`. -/
def searchCaseSeq (resp : JVal) : Option JVal := do
  let cases ← resp.getProp "cases"
  let c0 ← cases.index 0
  c0.getProp "case"

/-- The tail of both `extractCases` bodies: map every case node, then
`cases.length > 1 ? cases : cases[0]`, then the request callback's
`!newCases` check (an empty mapped list gives `cases[0] === undefined`, so
the callback rejects `unknown`). -/
def casesSettle (conf : Conf) (s1 : Settle) (caseSeq : JVal) : Settle :=
  match caseSeq with
  | .arr nodes =>
    match nodes.mapM (extractCase conf) with
    | none => s1    -- a TypeError escaped the callback
    | some bugs =>
      match bugs with
      | [] => s1.first (.rejected (.str MODULE_ERRORS.unknown))
      | [b] => s1.first (.resolved b)
      | _ => s1.first (.resolved (.arr bugs))
  | _ => s1    -- `.map` is not a function

/-- Settlement of `fogbugz.search(query, cols, max)`.  The query, column
list and max count only shape the outbound request, which is abstracted into
the transport collaborator. -/
def searchSettle (conf : Conf) (store : Option JVal) (t : Transport) : Settle :=
  if tokenTruthy store then
    match t with
    | .tErr e => .rejected (.transport e)
    | .tOk body =>
      match _parse body with
      | none => .pending
      | some (rejection, r) =>
        let s1 : Settle :=
          match rejection with
          | some rej => .rejected rej
          | none => .pending
        match r with
        | none => s1.first (.rejected (.str MODULE_ERRORS.bugNotFound))
        | some resp =>
          match searchGuard resp with
          | none => s1
          | some true => s1.first (.rejected (.str MODULE_ERRORS.bugNotFound))
          | some false =>
            match searchCaseSeq resp with
            | none => s1
            | some caseSeq => casesSettle conf s1 caseSeq
  else .rejected (.str MODULE_ERRORS.undefinedToken)

/-- `fogbugz.search(...)`: never touches the token store. -/
def search (conf : Conf) (store : Option JVal) (t : Transport) : OpResult :=
  ⟨searchSettle conf store t, store, tokenTruthy store⟩

/-! ## `editBug` -/

/-- The guard
`!r || !r.response || !r.response.case || !r.response.case.length`
evaluated on a defined `r`; on firing, `editBug` rejects with
`new Error(MODULE_ERRORS.xmlParseError)`. -/
def editBugGuard (resp : JVal) : Option Bool := do
  if ¬ jsTruthy resp then return true
  let k ← resp.getProp "case"
  if ¬ jsTruthy k then return true
  let lt ← jsLengthTruthy k
  return ¬ lt

/-- Settlement of `fogbugz.editBug(id, parameters, cols)`.  `id`,
`parameters` and `cols` only shape the outbound request (abstracted into the
transport); the response path differs from `search` in reading
`r.response.case` directly and in the guard's rejection value. -/
def editBugSettle (conf : Conf) (store : Option JVal) (t : Transport) : Settle :=
  if tokenTruthy store then
    match t with
    | .tErr e => .rejected (.transport e)
    | .tOk body =>
      match _parse body with
      | none => .pending
      | some (rejection, r) =>
        let s1 : Settle :=
          match rejection with
          | some rej => .rejected rej
          | none => .pending
        match r with
        | none => s1.first (.rejected (.errObj MODULE_ERRORS.xmlParseError))
        | some resp =>
          match editBugGuard resp with
          | none => s1
          | some true => s1.first (.rejected (.errObj MODULE_ERRORS.xmlParseError))
          | some false =>
            match resp.getProp "case" with
            | none => s1
            | some caseSeq => casesSettle conf s1 caseSeq
  else .rejected (.str MODULE_ERRORS.undefinedToken)

/-- `fogbugz.editBug(...)`: never touches the token store. -/
def editBug (conf : Conf) (store : Option JVal) (t : Transport) : OpResult :=
  ⟨editBugSettle conf store t, store, tokenTruthy store⟩

/-- The token that a `logon` network round-trip stores, if any: the reply
parses, carries no error, and `response.token[0]` is truthy. -/
def logonNewToken (t : Transport) : Option JVal :=
  match t with
  | .tErr _ => none
  | .tOk body =>
    match _parse body with
    | none => none
    | some (_, none) => none
    | some (_, some resp) =>
      match extractTokenVal resp with
      | none => none
      | some tokv => if jsTruthy tokv then some tokv else none

/-! ## Concrete fixtures (drawn from the repository's own test data) -/

/-- The test configuration: `https`, host `zzz.fogbugz.com`. -/
def conf0 : Conf := ⟨"https", "zzz.fogbugz.com", "zzz@yyy.com", "Password1"⟩

/-- A stored session token (the test suite's `TOKEN`). -/
def tok0 : Option JVal := some (.str "capybara")

/-- The parsed case node of the search/editBug test XML (`<case ixBug="16006"
operations="edit,assign,resolve,email,remind"><sTitle>...<sFooBar>...`). -/
def kase0 : JVal := .obj [
  ("$", .obj [("ixBug", .str "16006"),
              ("operations", .str "edit,assign,resolve,email,remind")]),
  ("sTitle", .arr [.str "AQ toolkit API: bar chart shown and selected for text"]),
  ("sFixFor", .arr [.str "whenever"]),
  ("sStatus", .arr [.str " Active "]),
  ("sFooBar", .arr [.str "FOO FOO FOO"])]

/-- The field list of `kase0` (for residual-merge statements). -/
def kase0Fields : JObj := [
  ("$", .obj [("ixBug", .str "16006"),
              ("operations", .str "edit,assign,resolve,email,remind")]),
  ("sTitle", .arr [.str "AQ toolkit API: bar chart shown and selected for text"]),
  ("sFixFor", .arr [.str "whenever"]),
  ("sStatus", .arr [.str " Active "]),
  ("sFooBar", .arr [.str "FOO FOO FOO"])]

/-- The Case record the test expects from `search` on `kase0` (field list). -/
def case0Fields : JObj := [
  ("id", .str "16006"),
  ("operations", .arr [.str "edit", .str "assign", .str "resolve", .str "email",
                       .str "remind"]),
  ("title", .str "AQ toolkit API: bar chart shown and selected for text"),
  ("status", .str "Active"),
  ("url", .str "https://zzz.fogbugz.com/default.asp?16006"),
  ("fixFor", .str "whenever"),
  ("sFooBar", .str "FOO FOO FOO"),
  ("_raw", kase0)]

/-- The parsed `<response>` of the search test XML. -/
def searchResp0 : JVal :=
  .obj [("cases", .arr [.obj [("$", .obj [("count", .str "7")]),
                              ("case", .arr [kase0])]])]

/-- The parsed `<response>` of the listFilters test XML. -/
def filtersResp0 : JVal := .obj [("filters", .arr [.obj [("filter", .arr [
  .obj [("_", .str "My Cases"),
        ("$", .obj [("type", .str "builtin"), ("sFilter", .str "ez")])],
  .obj [("_", .str "Inbox"),
        ("$", .obj [("type", .str "builtin"), ("sFilter", .str "inbox")])]])]])]

/-- A second case node, to exercise multi-case responses. -/
def kase1 : JVal := .obj [
  ("$", .obj [("ixBug", .str "16007"), ("operations", .str "edit,assign")]),
  ("sTitle", .arr [.str "Second bug"]),
  ("sFixFor", .arr [.str "now"]),
  ("sStatus", .arr [.str "Closed"])]

/-- The Case record extracted from `kase1` (field list). -/
def case1Fields : JObj := [
  ("id", .str "16007"),
  ("operations", .arr [.str "edit", .str "assign"]),
  ("title", .str "Second bug"),
  ("status", .str "Closed"),
  ("url", .str "https://zzz.fogbugz.com/default.asp?16007"),
  ("fixFor", .str "now"),
  ("_raw", kase1)]

/-- A parsed search `<response>` containing two case nodes in document
order. -/
def searchResp2 : JVal :=
  .obj [("cases", .arr [.obj [("case", .arr [kase0, kase1])]])]

/-- A parsed `<response>` carrying a server-side error (and, to exercise the
precedence claim, also a success field). -/
def errResp0 : JVal := .obj [("error", .arr [.str "not logged on"]),
                             ("token", .arr [.str "x"])]

/-- A parsed `<response>` of a logon reply: `<token><![CDATA[capybara]]></token>`. -/
def tokenResp0 : JVal := .obj [("token", .arr [.str "capybara"])]

/-- A case node carrying a child element named `title` (colliding with the
`Case` property of the same name) in addition to the required fields. -/
def kaseTitleClash : JVal := .obj [
  ("$", .obj [("ixBug", .str "1"), ("operations", .str "edit")]),
  ("sTitle", .arr [.str "A"]),
  ("sStatus", .arr [.str "B"]),
  ("sFixFor", .arr [.str "C"]),
  ("title", .arr [.str "ZZZ"])]

/-- A case node whose `<tags ott="5"/>` element has attributes but no nested
`tag` children: `kase.tags` is `[{$: {ott: '5'}}]`, so `kase.tags[0].tag` is
undefined and the residual merge calls `.trim()` on an object. -/
def kaseAttrTags : JVal := .obj [
  ("$", .obj [("ixBug", .str "2"), ("operations", .str "edit")]),
  ("sTitle", .arr [.str "A"]),
  ("sStatus", .arr [.str "B"]),
  ("sFixFor", .arr [.str "C"]),
  ("tags", .arr [.obj [("$", .obj [("ott", .str "5")])]])]

/-- The parsed search `<response>` wrapping `kaseTitleClash`. -/
def respTitleClash : JVal :=
  .obj [("cases", .arr [.obj [("case", .arr [kaseTitleClash])]])]

/-- The Case record `search` produces from `kaseTitleClash`: `title` keeps
the trimmed `sTitle` text `A`; the `title` child element is *not* copied. -/
def caseTitleClashFields : JObj := [
  ("id", .str "1"),
  ("operations", .arr [.str "edit"]),
  ("title", .str "A"),
  ("status", .str "B"),
  ("url", .str "https://zzz.fogbugz.com/default.asp?1"),
  ("fixFor", .str "C"),
  ("_raw", kaseTitleClash)]

/-- The parsed search `<response>` wrapping `kaseAttrTags`. -/
def respAttrTags : JVal :=
  .obj [("cases", .arr [.obj [("case", .arr [kaseAttrTags])]])]

/-- The field list of a case node with an empty `<tags></tags>` element
(xml2js yields `tags: ['']`), so `kase.tags[0].tag` is undefined. -/
def kaseEmptyTagsFields : JObj := [
  ("$", .obj [("ixBug", .str "3"), ("operations", .str "edit")]),
  ("sTitle", .arr [.str "T"]),
  ("sStatus", .arr [.str "S"]),
  ("sFixFor", .arr [.str "F"]),
  ("tags", .arr [.str ""])]

/-- The Case record extracted from the empty-tags case node: `tags` comes
from the residual merge (the unwrapped and trimmed empty string), not from
the `", "`-join. -/
def caseEmptyTagsFields : JObj := [
  ("id", .str "3"),
  ("operations", .arr [.str "edit"]),
  ("title", .str "T"),
  ("status", .str "S"),
  ("url", .str "https://zzz.fogbugz.com/default.asp?3"),
  ("fixFor", .str "F"),
  ("tags", .str ""),
  ("_raw", .obj kaseEmptyTagsFields)]

/-- The base (pre-residual-merge) Case object built from `kase0`. -/
def case0BaseFields : JObj := [
  ("id", .str "16006"),
  ("operations", .arr [.str "edit", .str "assign", .str "resolve", .str "email",
                       .str "remind"]),
  ("title", .str "AQ toolkit API: bar chart shown and selected for text"),
  ("status", .str "Active"),
  ("url", .str "https://zzz.fogbugz.com/default.asp?16006"),
  ("fixFor", .str "whenever")]

/-! ## Helper lemmas -/

theorem jsTruthy_obj (fs : JObj) : jsTruthy (.obj fs) = true := rfl

theorem jsTruthy_arr (xs : List JVal) : jsTruthy (.arr xs) = true := rfl

theorem jsTruthy_undef : jsTruthy .undefined = false := rfl

theorem getProp_obj (fs : JObj) (k : String) :
    JVal.getProp (.obj fs) k = some (lookupField fs k) := rfl

theorem index_arr (xs : List JVal) (i : Nat) :
    JVal.index (.arr xs) i = some (xs.getD i .undefined) := rfl

theorem jsLengthTruthy_arr (xs : List JVal) :
    jsLengthTruthy (.arr xs) = some (decide (xs.length ≠ 0)) := rfl

theorem lookupField_cons (p : String × JVal) (rest : JObj) (k : String) :
    lookupField (p :: rest) k = if p.1 = k then p.2 else lookupField rest k := by
  by_cases h : p.1 = k <;> simp [lookupField, List.find?, h]

theorem lookupField_objSet_self (b : JObj) (k : String) (v : JVal) :
    lookupField (objSet b k v) k = v := by
  induction b with
  | nil => simp [objSet, lookupField, List.find?]
  | cons p rest ih =>
    by_cases h : p.1 = k
    · simp [objSet, h, lookupField_cons]
    · rw [show objSet (p :: rest) k v = p :: objSet rest k v by simp [objSet, h],
        lookupField_cons]
      simp [h, ih]

theorem lookupField_objSet_ne (b : JObj) (k k' : String) (v : JVal) (h : k' ≠ k) :
    lookupField (objSet b k' v) k = lookupField b k := by
  induction b with
  | nil => simp [objSet, lookupField, List.find?, h]
  | cons p rest ih =>
    by_cases hp : p.1 = k'
    · rw [show objSet (p :: rest) k' v = (p.1, v) :: rest by simp [objSet, hp],
        lookupField_cons, lookupField_cons]
      have hpk : ¬ p.1 = k := fun hk => h (hp ▸ hk)
      simp [hpk]
    · rw [show objSet (p :: rest) k' v = p :: objSet rest k' v by simp [objSet, hp],
        lookupField_cons, lookupField_cons, ih]

theorem objSet_keys_of_not_mem (b : JObj) (k : String) (v : JVal)
    (h : k ∉ b.map Prod.fst) :
    (objSet b k v).map Prod.fst = b.map Prod.fst ++ [k] := by
  induction b with
  | nil => simp [objSet]
  | cons p rest ih =>
    simp only [List.map_cons, List.mem_cons] at h
    push_neg at h
    simp [objSet, Ne.symm h.1, ih h.2]

/-- A truthy property value means the key occurs in the field list. -/
theorem mem_of_jsTruthy_lookupField (fs : JObj) (k : String)
    (h : jsTruthy (lookupField fs k) = true) : k ∈ fs.map Prod.fst := by
  induction fs with
  | nil => simp [lookupField, List.find?, jsTruthy] at h
  | cons p rest ih =>
    by_cases hp : p.1 = k
    · simp [hp]
    · simp only [lookupField, List.find?, hp] at h
      simp only [List.map_cons, List.mem_cons]
      exact Or.inr (ih (by simpa [lookupField] using h))

theorem dedupFirstAux_mem (l : List String) :
    ∀ seen k, k ∈ dedupFirstAux seen l ↔ (k ∈ l ∧ k ∉ seen) := by
  induction l with
  | nil => simp [dedupFirstAux]
  | cons a rest ih =>
    intro seen k
    by_cases ha : a ∈ seen
    · rw [show dedupFirstAux seen (a :: rest) = dedupFirstAux seen rest from if_pos ha]
      rw [ih seen k]
      constructor
      · rintro ⟨h1, h2⟩
        exact ⟨List.mem_cons_of_mem _ h1, h2⟩
      · rintro ⟨h1, h2⟩
        rcases List.mem_cons.mp h1 with h | h
        · exact (h2 (h ▸ ha)).elim
        · exact ⟨h, h2⟩
    · rw [show dedupFirstAux seen (a :: rest) = a :: dedupFirstAux (a :: seen) rest from
        if_neg ha]
      rw [List.mem_cons, ih (a :: seen) k]
      constructor
      · rintro (h | ⟨h1, h2⟩)
        · subst h
          exact ⟨List.mem_cons_self _ _, ha⟩
        · simp only [List.mem_cons, not_or] at h2
          exact ⟨List.mem_cons_of_mem _ h1, h2.2⟩
      · rintro ⟨h1, h2⟩
        rcases List.mem_cons.mp h1 with h | h
        · exact Or.inl h
        · by_cases hk : k = a
          · exact Or.inl hk
          · exact Or.inr ⟨h, by simp [hk, h2]⟩

theorem dedupFirstAux_nodup (l : List String) :
    ∀ seen, (dedupFirstAux seen l).Nodup := by
  induction l with
  | nil => intro seen; simp [dedupFirstAux]
  | cons a rest ih =>
    intro seen
    by_cases ha : a ∈ seen
    · rw [show dedupFirstAux seen (a :: rest) = dedupFirstAux seen rest from if_pos ha]
      exact ih seen
    · rw [show dedupFirstAux seen (a :: rest) = a :: dedupFirstAux (a :: seen) rest from
        if_neg ha]
      refine List.nodup_cons.mpr ⟨?_, ih (a :: seen)⟩
      intro hmem
      exact ((dedupFirstAux_mem rest (a :: seen) a).mp hmem).2 (List.mem_cons_self _ _)

theorem dedupFirst_nodup (l : List String) : (dedupFirst l).Nodup :=
  dedupFirstAux_nodup l []

theorem mem_dedupFirst (l : List String) (k : String) : k ∈ dedupFirst l ↔ k ∈ l := by
  rw [dedupFirst, dedupFirstAux_mem]
  simp

theorem residualKeys_nodup (fs bug : JObj) : (residualKeys fs bug).Nodup :=
  (dedupFirst_nodup _).filter _

/-- A key left untouched by the residual merge keeps its binding. -/
theorem residualMerge_not_mem (fs : JObj) :
    ∀ ks b b', residualMerge fs b ks = some b' →
      ∀ k, k ∉ ks → lookupField b' k = lookupField b k := by
  intro ks
  induction ks with
  | nil =>
    intro b b' h k _
    simp only [residualMerge, Option.some.injEq] at h
    rw [h]
  | cons a rest ih =>
    intro b b' h k hk
    simp only [residualMerge, Option.bind_eq_bind, Option.bind_eq_some] at h
    obtain ⟨v, _, hmerge⟩ := h
    simp only [List.mem_cons, not_or] at hk
    rw [ih _ _ hmerge k hk.2, lookupField_objSet_ne _ _ _ _ (Ne.symm hk.1)]

/-- Every key the residual merge processes ends up bound to the
unwrap-and-trim transform of its raw value. -/
theorem residualMerge_mem (fs : JObj) :
    ∀ ks b b', residualMerge fs b ks = some b' → ks.Nodup →
      ∀ k ∈ ks, ∃ w, residualVal fs k = some w ∧ lookupField b' k = w := by
  intro ks
  induction ks with
  | nil => simp
  | cons a rest ih =>
    intro b b' h hnodup k hk
    simp only [residualMerge, Option.bind_eq_bind, Option.bind_eq_some] at h
    obtain ⟨v, hv, hmerge⟩ := h
    rcases List.mem_cons.mp hk with rfl | hmem
    · refine ⟨v, hv, ?_⟩
      rw [residualMerge_not_mem fs _ _ _ hmerge k (List.nodup_cons.mp hnodup).1,
        lookupField_objSet_self]
    · exact ih _ _ hmerge (List.nodup_cons.mp hnodup).2 k hmem

/-! ## Claims -/

/-- C5: with no token stored, `logoff()`, `search(...)`, `listFilters()`,
`setCurrentFilter(...)` and `editBug(...)` each reject with the
undefined-token error, leave the store empty, and never invoke the transport
collaborator. -/
theorem C5_precondition_enforcement (conf : Conf) (t : Transport) (filter : JVal) :
    logoff none t = ⟨.rejected (.str MODULE_ERRORS.undefinedToken), none, false⟩ ∧
    search conf none t = ⟨.rejected (.str MODULE_ERRORS.undefinedToken), none, false⟩ ∧
    listFilters conf none t = ⟨.rejected (.str MODULE_ERRORS.undefinedToken), none, false⟩ ∧
    setCurrentFilter none filter t =
      ⟨.rejected (.str MODULE_ERRORS.undefinedToken), none, false⟩ ∧
    editBug conf none t = ⟨.rejected (.str MODULE_ERRORS.undefinedToken), none, false⟩ :=
  ⟨rfl, rfl, rfl, rfl, rfl⟩

/-- C7 evaluated at the failing input: on a response body that is not
parseable XML, `logon`, `listFilters`, `search` and `editBug` reject with the
`MODULE_ERRORS.xmlParseError` string, but `setCurrentFilter` rejects with no
reason at all (`dfrd.reject()` — `_extractEmptyResponse` merely *returns*
`MODULE_ERRORS.xmlParseError` into `parseString`, which discards it), so its
rejection does not carry `XmlParseError`. -/
theorem C7_malformed_xml_eval :
    (logon none (.tOk .malformed)).settle =
      .rejected (.str MODULE_ERRORS.xmlParseError) ∧
    (listFilters conf0 tok0 (.tOk .malformed)).settle =
      .rejected (.str MODULE_ERRORS.xmlParseError) ∧
    (search conf0 tok0 (.tOk .malformed)).settle =
      .rejected (.str MODULE_ERRORS.xmlParseError) ∧
    (editBug conf0 tok0 (.tOk .malformed)).settle =
      .rejected (.str MODULE_ERRORS.xmlParseError) ∧
    (setCurrentFilter tok0 (.str "ez") (.tOk .malformed)).settle = .rejected .undefined :=
  ⟨rfl, rfl, rfl, rfl, rfl⟩

/-- C1 counterexample: `logoff` is a public operation, yet on a response
body whose top-level node carries a truthy (non-empty) `error` field it
resolves with `true` instead of rejecting — its callback never parses the
body at all.  So "every public operation rejects" fails. -/
theorem C1_error_precedence_counterexample :
    jsTruthy (lookupField [("error", .arr [.str "not logged on"]),
                           ("token", .arr [.str "x"])] "error") = true ∧
    (logoff tok0 (.tOk (.xml errResp0))).settle = .resolved (.bool true) :=
  ⟨rfl, rfl⟩

/-- C1 amended: every *response-parsing* operation — `logon` when no token
is cached, and `listFilters`, `setCurrentFilter`, `search`, `editBug` when a
token is present (and, for `setCurrentFilter`, the filter argument yields an
id) — rejects with the parsed value of the `error` field (which carries the
server's error text verbatim) whenever that field is truthy, regardless of
which other fields are present or absent; the rejection precedes and
suppresses every operation-specific extraction outcome.  `logoff` never
parses the body and is exempt. -/
theorem C1_error_precedence_amended (conf : Conf) (store : Option JVal)
    (resp e filter : JVal)
    (herr : resp.getProp "error" = some e)
    (htruthy : jsTruthy e = true) :
    (tokenTruthy store = true →
      (listFilters conf store (.tOk (.xml resp))).settle = .rejected (.val e) ∧
      ((filterIdOf filter).isSome = true →
        (setCurrentFilter store filter (.tOk (.xml resp))).settle = .rejected (.val e)) ∧
      (search conf store (.tOk (.xml resp))).settle = .rejected (.val e) ∧
      (editBug conf store (.tOk (.xml resp))).settle = .rejected (.val e)) ∧
    ((logon none (.tOk (.xml resp))).settle = .rejected (.val e)) := by
  constructor
  · intro htok
    refine ⟨?_, ?_, ?_, ?_⟩
    · simp [listFilters, listFiltersSettle, htok, _parse, herr, htruthy, Settle.first]
    · intro hfid
      rcases Option.isSome_iff_exists.mp hfid with ⟨fid, hfid'⟩
      simp [setCurrentFilter, setCurrentFilterSettle, htok, hfid',
        _extractEmptyResponse, herr, htruthy, Settle.first]
    · simp [search, searchSettle, htok, _parse, herr, htruthy, Settle.first]
    · simp [editBug, editBugSettle, htok, _parse, herr, htruthy, Settle.first]
  · simp [logon, _parse, herr, htruthy, Settle.first]

/-- C1 amended, witnessed at the error response fixture with a stored token
(and for `logon`, an empty store). -/
theorem C1_error_precedence_amended_witness :
    (listFilters conf0 tok0 (.tOk (.xml errResp0))).settle =
      .rejected (.val (.arr [.str "not logged on"])) ∧
    (setCurrentFilter tok0 (.str "ez") (.tOk (.xml errResp0))).settle =
      .rejected (.val (.arr [.str "not logged on"])) ∧
    (search conf0 tok0 (.tOk (.xml errResp0))).settle =
      .rejected (.val (.arr [.str "not logged on"])) ∧
    (editBug conf0 tok0 (.tOk (.xml errResp0))).settle =
      .rejected (.val (.arr [.str "not logged on"])) ∧
    (logon none (.tOk (.xml errResp0))).settle =
      .rejected (.val (.arr [.str "not logged on"])) := by
  have h := C1_error_precedence_amended conf0 tok0 errResp0
    (.arr [.str "not logged on"]) (.str "ez") (by rfl) (by rfl)
  have h1 := h.1 (by rfl)
  exact ⟨h1.1, h1.2.1 (by rfl), h1.2.2.1, h1.2.2.2, h.2⟩

/-- C4 counterexample: after a first logon stored the token, a second
`logon()` does resolve with the cached token, but the transport collaborator
is invoked anyway — the source has no `else` around its `request(...)` call,
so the logon request is issued unconditionally. -/
theorem C4_cached_logon_counterexample :
    (logon none (.tOk (.xml tokenResp0))).store = tok0 ∧
    (logon tok0 (.tOk (.xml tokenResp0))).settle =
      .resolved (.obj [("token", .str "capybara"), ("cached", .bool true)]) ∧
    (logon tok0 (.tOk (.xml tokenResp0))).networkUsed = true :=
  ⟨rfl, rfl, rfl⟩

/-- C4 amended: a first `logon()` from an empty store resolves with
`{token: T, cached: false}` and stores T; a second `logon()` while T is still
stored resolves with `{token: T, cached: true}` whatever the transport does,
but the transport collaborator is nonetheless invoked again (the already-
resolved promise simply ignores that request's outcome). -/
theorem C4_cached_logon_amended (T : String) (hT : T ≠ "") :
    (logon none (.tOk (.xml (.obj [("token", .arr [.str T])]))) =
      ⟨.resolved (.obj [("token", .str T), ("cached", .bool false)]),
       some (.str T), true⟩) ∧
    (∀ t2 : Transport,
      (logon (some (.str T)) t2).settle =
        .resolved (.obj [("token", .str T), ("cached", .bool true)]) ∧
      (logon (some (.str T)) t2).networkUsed = true) := by
  constructor
  · simp [logon, _parse, extractTokenVal, JVal.getProp, lookupField, List.find?,
      JVal.index, jsTruthy, hT, Settle.first]
  · intro t2
    cases t2 with
    | tErr e => simp [logon, jsTruthy, hT, Settle.first]
    | tOk body =>
      cases hp : _parse body with
      | none => simp [logon, jsTruthy, hT, hp, Settle.first]
      | some pr =>
        obtain ⟨rej, r⟩ := pr
        cases r with
        | none =>
          cases rej <;> simp [logon, jsTruthy, hT, hp, Settle.first]
        | some resp =>
          cases hx : extractTokenVal resp with
          | none => cases rej <;> simp [logon, jsTruthy, hT, hp, hx, Settle.first]
          | some tokv =>
            cases rej <;> simp [logon, jsTruthy, hT, hp, hx, Settle.first] <;>
              split <;> simp

/-- C4 amended, witnessed at the test token `capybara`. -/
theorem C4_cached_logon_amended_witness :
    (logon none (.tOk (.xml (.obj [("token", .arr [.str "capybara"])]))) =
      ⟨.resolved (.obj [("token", .str "capybara"), ("cached", .bool false)]),
       some (.str "capybara"), true⟩) ∧
    ((logon (some (.str "capybara")) (.tErr "down")).settle =
        .resolved (.obj [("token", .str "capybara"), ("cached", .bool true)]) ∧
      (logon (some (.str "capybara")) (.tErr "down")).networkUsed = true) := by
  have h := C4_cached_logon_amended "capybara" (by decide)
  exact ⟨h.1, h.2 (.tErr "down")⟩

/-- C3: a search response with exactly one case node resolves to the single
bare Case record (not a one-element sequence); with two or more case nodes
it resolves to the ordered sequence of Case records in document order (the
order of `mapM` over the `case` node sequence). -/
theorem C3_single_vs_multiple (conf : Conf) (store : Option JVal)
    (fs : JObj) (crest : List JVal) (c0 : JVal) (nodes bugs : List JVal)
    (htok : tokenTruthy store = true)
    (herr : jsTruthy (lookupField fs "error") = false)
    (hcases : lookupField fs "cases" = .arr (c0 :: crest))
    (hcase : c0.getProp "case" = some (.arr nodes))
    (hmap : nodes.mapM (extractCase conf) = some bugs) :
    (∀ b, bugs = [b] →
       (search conf store (.tOk (.xml (.obj fs)))).settle = .resolved b) ∧
    (2 ≤ bugs.length →
       (search conf store (.tOk (.xml (.obj fs)))).settle = .resolved (.arr bugs)) := by
  have hsettle : (search conf store (.tOk (.xml (.obj fs)))).settle =
      casesSettle conf .pending (.arr nodes) := by
    simp [search, searchSettle, htok, _parse, getProp_obj, herr, searchGuard,
      searchCaseSeq, hcases, hcase, jsTruthy_obj, jsTruthy_arr, index_arr,
      jsLengthTruthy_arr]
  constructor
  · rintro b rfl
    rw [hsettle]
    simp only [casesSettle]
    rw [hmap]
    rfl
  · intro h2
    rw [hsettle]
    match bugs, h2, hmap with
    | b1 :: b2 :: brest, _, hmap =>
      simp only [casesSettle]
      rw [hmap]
      rfl

/-- C8: on the two-filter response XML, `listFilters()` resolves with the
two Filter records in document order, `name` the trimmed element text, `id`
the `sFilter` attribute, and `url` built from the configured protocol and
host as `{protocol}://{host}/default.asp?pgx=LF&ixFilter={id}`. -/
theorem C8_filter_round_trip (conf : Conf) (store : Option JVal)
    (htok : tokenTruthy store = true) :
    (listFilters conf store (.tOk (.xml filtersResp0))).settle =
      .resolved (.arr [
        .obj [("name", .str "My Cases"), ("type", .str "builtin"),
              ("id", .str "ez"),
              ("url", .str (conf.protocol ++ "://" ++ conf.host ++
                "/default.asp?pgx=LF&ixFilter=" ++ "ez"))],
        .obj [("name", .str "Inbox"), ("type", .str "builtin"),
              ("id", .str "inbox"),
              ("url", .str (conf.protocol ++ "://" ++ conf.host ++
                "/default.asp?pgx=LF&ixFilter=" ++ "inbox"))]]) := by
  simp only [listFilters, listFiltersSettle, htok, if_true]
  rfl

/-- C8 witnessed at the test configuration, producing the URLs the test
asserts verbatim. -/
theorem C8_filter_round_trip_witness :
    (listFilters conf0 tok0 (.tOk (.xml filtersResp0))).settle =
      .resolved (.arr [
        .obj [("name", .str "My Cases"), ("type", .str "builtin"),
              ("id", .str "ez"),
              ("url", .str "https://zzz.fogbugz.com/default.asp?pgx=LF&ixFilter=ez")],
        .obj [("name", .str "Inbox"), ("type", .str "builtin"),
              ("id", .str "inbox"),
              ("url", .str "https://zzz.fogbugz.com/default.asp?pgx=LF&ixFilter=inbox")]]) :=
  C8_filter_round_trip conf0 tok0 rfl

/-- C6 counterexample: with a token stored and a parsed response carrying
neither an `error` field nor a `cases` container, `search` rejects with the
bug-not-found string `could not find bug`, not with `unknown error`. -/
theorem C6_missing_cases_counterexample :
    (search conf0 tok0 (.tOk (.xml (.obj [])))).settle =
      .rejected (.str MODULE_ERRORS.bugNotFound) ∧
    MODULE_ERRORS.bugNotFound ≠ MODULE_ERRORS.unknown :=
  ⟨rfl, by decide⟩

/-- C6 amended: on an error-free response whose expected case container is
missing, `search` rejects with `MODULE_ERRORS.bugNotFound` (and with
`MODULE_ERRORS.unknown` only in the unreachable case of a present but empty
`case` sequence), while `editBug` rejects with `new Error` carrying the
xml-parse-error message in both situations. -/
theorem C6_missing_cases_amended (conf : Conf) (store : Option JVal) (fs : JObj)
    (htok : tokenTruthy store = true)
    (herr : jsTruthy (lookupField fs "error") = false) :
    (lookupField fs "cases" = .undefined →
      (search conf store (.tOk (.xml (.obj fs)))).settle =
        .rejected (.str MODULE_ERRORS.bugNotFound)) ∧
    (∀ c0 crest, lookupField fs "cases" = .arr (c0 :: crest) →
      c0.getProp "case" = some (.arr []) →
      (search conf store (.tOk (.xml (.obj fs)))).settle =
        .rejected (.str MODULE_ERRORS.unknown)) ∧
    (lookupField fs "case" = .undefined →
      (editBug conf store (.tOk (.xml (.obj fs)))).settle =
        .rejected (.errObj MODULE_ERRORS.xmlParseError)) ∧
    (lookupField fs "case" = .arr [] →
      (editBug conf store (.tOk (.xml (.obj fs)))).settle =
        .rejected (.errObj MODULE_ERRORS.xmlParseError)) := by
  refine ⟨?_, ?_, ?_, ?_⟩
  · intro h
    simp [search, searchSettle, htok, _parse, getProp_obj, herr, searchGuard, h,
      jsTruthy_obj, jsTruthy_undef, Settle.first]
  · intro c0 crest h hc
    simp [search, searchSettle, htok, _parse, getProp_obj, herr, searchGuard,
      searchCaseSeq, h, hc, jsTruthy_obj, jsTruthy_arr, index_arr,
      jsLengthTruthy_arr, casesSettle, Settle.first]
    rfl
  · intro h
    simp [editBug, editBugSettle, htok, _parse, getProp_obj, herr, editBugGuard, h,
      jsTruthy_obj, jsTruthy_undef, Settle.first]
  · intro h
    simp [editBug, editBugSettle, htok, _parse, getProp_obj, herr, editBugGuard, h,
      jsTruthy_obj, jsTruthy_arr, jsLengthTruthy_arr, Settle.first]

/-- C6 amended, witnessed: empty response object for the absent containers,
and responses with literally empty case sequences. -/
theorem C6_missing_cases_amended_witness :
    ((search conf0 tok0 (.tOk (.xml (.obj [("ok", .str "1")])))).settle =
      .rejected (.str MODULE_ERRORS.bugNotFound)) ∧
    ((search conf0 tok0
        (.tOk (.xml (.obj [("cases", .arr [.obj [("case", .arr [])]])])))).settle =
      .rejected (.str MODULE_ERRORS.unknown)) ∧
    ((editBug conf0 tok0 (.tOk (.xml (.obj [("ok", .str "1")])))).settle =
      .rejected (.errObj MODULE_ERRORS.xmlParseError)) ∧
    ((editBug conf0 tok0 (.tOk (.xml (.obj [("case", .arr [])])))).settle =
      .rejected (.errObj MODULE_ERRORS.xmlParseError)) := by
  refine ⟨?_, ?_, ?_, ?_⟩
  · exact (C6_missing_cases_amended conf0 tok0 [("ok", .str "1")]
      (by rfl) (by rfl)).1 (by rfl)
  · exact (C6_missing_cases_amended conf0 tok0 [("cases", .arr [.obj [("case", .arr [])]])]
      (by rfl) (by rfl)).2.1 (.obj [("case", .arr [])]) [] (by rfl) (by rfl)
  · exact (C6_missing_cases_amended conf0 tok0 [("ok", .str "1")]
      (by rfl) (by rfl)).2.2.1 (by rfl)
  · exact (C6_missing_cases_amended conf0 tok0 [("case", .arr [])]
      (by rfl) (by rfl)).2.2.2 (by rfl)

/-- C9: the token store is never touched by `logoff`, `search`,
`listFilters`, `setCurrentFilter` or `editBug` (in particular a successful
`logoff` leaves the token in place); `setToken`/`forgetToken` overwrite and
clear the slot; `logon` writes exactly the truthy token of a successful
network logon reply and otherwise leaves the store alone, so every rejected
`logon` leaves the store as it was. -/
theorem C9_store_frame (conf : Conf) (store : Option JVal) (t : Transport)
    (filter token : JVal) :
    (logoff store t).store = store ∧
    (search conf store t).store = store ∧
    (listFilters conf store t).store = store ∧
    (setCurrentFilter store filter t).store = store ∧
    (editBug conf store t).store = store ∧
    setToken store token = some token ∧
    forgetToken store = none ∧
    ((logon store t).store = match logonNewToken t with
      | some tk => some tk
      | none => store) ∧
    (∀ e, (logon store t).settle = .rejected e → (logon store t).store = store) := by
  refine ⟨rfl, rfl, rfl, rfl, rfl, rfl, rfl, ?_, ?_⟩
  · cases t with
    | tErr e => rfl
    | tOk body =>
      cases body with
      | malformed => rfl
      | xml resp =>
        cases hge : resp.getProp "error" with
        | none => simp [logon, logonNewToken, _parse, hge]
        | some e =>
          by_cases het : jsTruthy e
          · simp [logon, logonNewToken, _parse, hge, het]
          · simp only [logon, logonNewToken, _parse, hge, het,
              Bool.false_eq_true, if_false]
            cases hx : extractTokenVal resp with
            | none => simp
            | some tokv =>
              by_cases ht : jsTruthy tokv <;> simp [ht]
  · intro e
    cases t with
    | tErr e2 => intro _; rfl
    | tOk body =>
      cases body with
      | malformed => intro _; rfl
      | xml resp =>
        cases hge : resp.getProp "error" with
        | none => simp [logon, _parse, hge]
        | some e2 =>
          by_cases het : jsTruthy e2
          · simp [logon, _parse, hge, het]
          · simp only [logon, _parse, hge, het, Bool.false_eq_true, if_false]
            cases hx : extractTokenVal resp with
            | none => simp
            | some tokv =>
              by_cases ht : jsTruthy tokv
              · simp only [ht, if_true]
                intro hset
                -- a successful extraction resolves; it cannot have rejected
                cases store with
                | none => simp [Settle.first] at hset
                | some tok =>
                  by_cases htk : jsTruthy tok <;>
                    simp [htk, Settle.first] at hset
              · simp [ht]

/-- C9 witnessed: a successful `logoff` keeps the token; a failed `logon`
leaves the empty store empty. -/
theorem C9_store_frame_witness :
    (logoff tok0 (.tOk (.xml (.str "")))).store = tok0 ∧
    (logon none (.tErr "boom")).store = none :=
  ⟨(C9_store_frame conf0 tok0 (.tOk (.xml (.str ""))) (.str "ez") (.str "x")).1,
   (C9_store_frame conf0 none (.tErr "boom") (.str "ez") (.str "x")).2.2.2.2.2.2.2.2
     (.transport "boom") rfl⟩

/-- Updating an existing key leaves the key list unchanged. -/
theorem objSet_keys_of_mem (b : JObj) (k : String) (v : JVal)
    (h : k ∈ b.map Prod.fst) :
    (objSet b k v).map Prod.fst = b.map Prod.fst := by
  induction b with
  | nil => simp at h
  | cons p rest ih =>
    by_cases hp : p.1 = k
    · simp [objSet, hp]
    · have hmem : k ∈ rest.map Prod.fst := by
        rcases List.mem_cons.mp h with h | h
        · exact absurd h.symm hp
        · exact h
      simp [objSet, hp, ih hmem]

/-- Membership in the keys of an updated object comes from the old keys or
the written key. -/
theorem mem_keys_objSet (b : JObj) (k k' : String) (v : JVal)
    (h : k' ∈ (objSet b k v).map Prod.fst) : k' ∈ b.map Prod.fst ∨ k' = k := by
  by_cases hm : k ∈ b.map Prod.fst
  · rw [objSet_keys_of_mem _ _ _ hm] at h
    exact Or.inl h
  · rw [objSet_keys_of_not_mem _ _ _ hm] at h
    rcases List.mem_append.mp h with h | h
    · exact Or.inl h
    · exact Or.inr (by simpa using h)

/-- The keys of the `new Case({...})` literal. -/
theorem caseBug0_keys (conf : Conf) (kase : JVal) (bug0 : JObj)
    (h : caseBug0 conf kase = some bug0) :
    bug0.map Prod.fst = ["id", "operations", "title", "status", "url", "fixFor"] := by
  simp only [caseBug0, Option.bind_eq_bind, Option.bind_eq_some, Option.pure_def,
    Option.some.injEq] at h
  obtain ⟨attrs, _, ixBug, _, ops, _, title, _, status, _, fixFor, _, hpure⟩ := h
  rw [← hpure]
  rfl

/-- The assignee block can only add the two assignee keys. -/
theorem caseAssignee_keys (kase : JVal) (bug0 bug1 : JObj)
    (h : caseAssignee kase bug0 = some bug1) (k : String)
    (hk : k ∈ bug1.map Prod.fst) :
    k ∈ bug0.map Prod.fst ∨ k = "assignedTo" ∨ k = "assignedToEmail" := by
  simp only [caseAssignee, Option.bind_eq_bind, Option.bind_eq_some] at h
  obtain ⟨pa, _, h⟩ := h
  by_cases hpa : jsTruthy pa
  · simp only [hpa, if_true, Option.bind_eq_bind, Option.bind_eq_some,
      Option.pure_def, Option.some.injEq] at h
    obtain ⟨p0, _, a, _, ae, _, hpure⟩ := h
    rw [← hpure] at hk
    rcases mem_keys_objSet _ _ _ _ hk with hk | hk
    · rcases mem_keys_objSet _ _ _ _ hk with hk | hk
      · exact Or.inl hk
      · exact Or.inr (Or.inl hk)
    · exact Or.inr (Or.inr hk)
  · simp only [hpa, Bool.false_eq_true, if_false, Option.pure_def,
      Option.some.injEq] at h
    rw [← h] at hk
    exact Or.inl hk

/-- When `kase.tags[0].tag` is falsy the joined-tags block is a no-op. -/
theorem caseJoinedTags_skip (fs : JObj) (bug1 : JObj) (tg tg0 tgt : JVal)
    (htags : lookupField fs "tags" = tg) (htr : jsTruthy tg = true)
    (hidx : tg.index 0 = some tg0) (htag : tg0.getProp "tag" = some tgt)
    (hfalse : jsTruthy tgt = false) :
    caseJoinedTags (.obj fs) bug1 = some bug1 := by
  rw [caseJoinedTags]
  simp [getProp_obj, htags, htr, hidx, htag, hfalse]

/-- Decomposition of a successful `extractCase` on an object node. -/
theorem extractCase_decomp (conf : Conf) (fs cs : JObj)
    (h : extractCase conf (.obj fs) = some (.obj cs)) :
    ∃ bug2 bug3, extractCaseBase conf (.obj fs) = some bug2 ∧
      residualMerge fs bug2 (residualKeys fs bug2) = some bug3 ∧
      cs = objSet bug3 "_raw" (.obj fs) := by
  simp only [extractCase, Option.bind_eq_bind, Option.bind_eq_some] at h
  obtain ⟨bug2, hbase, bug3, hmerge, hpure⟩ := h
  refine ⟨bug2, bug3, hbase, hmerge, ?_⟩
  simp only [Option.pure_def, Option.some.injEq, JVal.obj.injEq] at hpure
  exact hpure.symm

/-- C2 counterexample: a case node carrying a child element `title` — a key
not among `sTitle, sStatus, sFixFor, sPersonAssignedTo, sEmailAssignedTo,
tags, $` — whose value is `['ZZZ']`.  The claim says it is copied onto the
Case under the same key (so `title` would become `ZZZ`), but the code also
excludes every already-set Case property (`_.keys(bug)`), so the resolved
Case keeps `title = 'A'` from `sTitle` and `ZZZ` is dropped. -/
theorem C2_residual_counterexample :
    (search conf0 tok0 (.tOk (.xml respTitleClash))).settle =
      .resolved (.obj caseTitleClashFields) ∧
    lookupField caseTitleClashFields "title" = .str "A" ∧
    ("A" : String) ≠ "ZZZ" ∧
    "title" ∉ ["sTitle", "sStatus", "sFixFor", "sPersonAssignedTo",
               "sEmailAssignedTo", "tags", "$"] :=
  ⟨rfl, rfl, by decide, by decide⟩

/-- C2 amended: every residual key — a case-node child key not among
`sTitle, sStatus, $, sFixFor, sPersonAssignedTo, sEmailAssignedTo` *nor
among the property names already set on the Case* (`residualKeys`) — is
copied onto the resulting Case under the same key name, transformed by
`residualVal` (the single element unwrapped and trimmed when the value is a
length-1 sequence of a string; a length-1 sequence of a non-string makes the
extraction throw, so no Case is produced; anything else copied unmodified),
except that the final `_raw` write wins for the key `_raw` itself; and the
Case's `_raw` field holds the full original case node.  In particular an
unmodeled `sFooBar` field `['FOO FOO FOO']` surfaces as
`sFooBar = 'FOO FOO FOO'`. -/
theorem C2_residual_amended (conf : Conf) (fs cs bug2 : JObj)
    (hbase : extractCaseBase conf (.obj fs) = some bug2)
    (hcase : extractCase conf (.obj fs) = some (.obj cs)) :
    (∀ k ∈ residualKeys fs bug2, k ≠ "_raw" →
       ∃ w, residualVal fs k = some w ∧ lookupField cs k = w) ∧
    lookupField cs "_raw" = .obj fs := by
  obtain ⟨bug2', bug3, hbase', hmerge, hcs⟩ := extractCase_decomp conf fs cs hcase
  rw [hbase] at hbase'
  obtain rfl : bug2 = bug2' := Option.some.inj hbase'
  constructor
  · intro k hk hne
    obtain ⟨w, hw, hlook⟩ :=
      residualMerge_mem fs _ _ _ hmerge (residualKeys_nodup fs bug2) k hk
    refine ⟨w, hw, ?_⟩
    rw [hcs, lookupField_objSet_ne _ _ _ _ (Ne.symm hne)]
    exact hlook
  · rw [hcs, lookupField_objSet_self]

/-- C2 amended, witnessed at the repository's own test case node: the
unmodeled `sFooBar` field surfaces verbatim and `_raw` holds the node. -/
theorem C2_residual_amended_witness :
    (∃ w, residualVal kase0Fields "sFooBar" = some w ∧
       lookupField case0Fields "sFooBar" = w) ∧
    lookupField case0Fields "_raw" = .obj kase0Fields := by
  have h := C2_residual_amended conf0 kase0Fields case0Fields case0BaseFields
    (by rfl) (by rfl)
  exact ⟨h.1 "sFooBar" (by decide) (by decide), h.2⟩

/-- C10 counterexample: a case node whose `<tags ott="5"/>` has no nested
`tag` children but a non-string first element (`[{$: {ott: '5'}}]`).  The
claim says the raw tags value is copied unmodified, but the residual merge
calls `.trim()` on the object, the extraction throws, and the search promise
never settles — no Case is produced at all. -/
theorem C10_unjoined_tags_counterexample :
    extractCase conf0 kaseAttrTags = none ∧
    (search conf0 tok0 (.tOk (.xml respAttrTags))).settle = .pending :=
  ⟨rfl, rfl⟩

/-- C10 amended: when a case node's `tags` child is truthy but
`tags[0].tag` is falsy, the joined form is not produced; whenever a Case is
produced at all, its `tags` property is the residual-merge transform of the
raw tags value (`residualVal`: unwrap-and-trim for a length-1 sequence of a
string, copy unmodified for other non-throwing shapes; a length-1 sequence
of a non-string throws, so no Case results). -/
theorem C10_unjoined_tags_amended (conf : Conf) (fs cs : JObj) (tg tg0 tgt : JVal)
    (htags : lookupField fs "tags" = tg) (htr : jsTruthy tg = true)
    (hidx : tg.index 0 = some tg0) (htag : tg0.getProp "tag" = some tgt)
    (hfalse : jsTruthy tgt = false)
    (hcase : extractCase conf (.obj fs) = some (.obj cs)) :
    ∃ w, residualVal fs "tags" = some w ∧ lookupField cs "tags" = w := by
  obtain ⟨bug2, bug3, hbase, hmerge, hcs⟩ := extractCase_decomp conf fs cs hcase
  have hnotbug2 : "tags" ∉ bug2.map Prod.fst := by
    simp only [extractCaseBase, Option.bind_eq_bind, Option.bind_eq_some] at hbase
    obtain ⟨bug0, hb0, bug1, hb1, hb2⟩ := hbase
    rw [caseJoinedTags_skip fs bug1 tg tg0 tgt htags htr hidx htag hfalse] at hb2
    obtain rfl : bug1 = bug2 := Option.some.inj hb2
    intro hmem
    rcases caseAssignee_keys _ _ _ hb1 "tags" hmem with h | h | h
    · rw [caseBug0_keys conf _ _ hb0] at h
      exact absurd h (by decide)
    · exact absurd h (by decide)
    · exact absurd h (by decide)
  have hmemres : "tags" ∈ residualKeys fs bug2 := by
    refine List.mem_filter.mpr ⟨(mem_dedupFirst _ _).mpr ?_, decide_eq_true ?_⟩
    · exact mem_of_jsTruthy_lookupField fs "tags" (htags ▸ htr)
    · intro hmem
      rcases List.mem_append.mp hmem with h | h
      · exact hnotbug2 h
      · exact absurd h (by decide)
  obtain ⟨w, hw, hlook⟩ :=
    residualMerge_mem fs _ _ _ hmerge (residualKeys_nodup fs bug2) "tags" hmemres
  refine ⟨w, hw, ?_⟩
  rw [hcs, lookupField_objSet_ne _ _ _ _ (by decide)]
  exact hlook

/-- C10 amended, witnessed at an empty `<tags></tags>` node: the Case's
`tags` is the trimmed unwrap of `['']`, i.e. the empty string — not a
joined string. -/
theorem C10_unjoined_tags_amended_witness :
    ∃ w, residualVal kaseEmptyTagsFields "tags" = some w ∧
      lookupField caseEmptyTagsFields "tags" = w :=
  C10_unjoined_tags_amended conf0 kaseEmptyTagsFields caseEmptyTagsFields
    (.arr [.str ""]) (.str "") .undefined (by rfl) (by rfl) (by rfl) (by rfl)
    (by rfl) (by rfl)

/-- C3 witnessed at the repository's search test XML (one case node) and at
a two-case response (document order preserved). -/
theorem C3_single_vs_multiple_witness :
    (search conf0 tok0 (.tOk (.xml searchResp0))).settle =
      .resolved (.obj case0Fields) ∧
    (search conf0 tok0 (.tOk (.xml searchResp2))).settle =
      .resolved (.arr [.obj case0Fields, .obj case1Fields]) := by
  constructor
  · exact (C3_single_vs_multiple conf0 tok0 _ _ _ [kase0] [.obj case0Fields]
      (by rfl) (by rfl) (by rfl) (by rfl) (by rfl)).1 _ rfl
  · exact (C3_single_vs_multiple conf0 tok0 _ _ _ [kase0, kase1]
      [.obj case0Fields, .obj case1Fields]
      (by rfl) (by rfl) (by rfl) (by rfl) (by rfl)).2 (by decide)

end Fogbugz
